import Mathlib

/-!
Shallow embedding of the `mars` terminal-rendering engine (crates
`mars_math` and `mars_surface`), faithful to the Rust source.

Machine integers are modelled as `Nat`/`Int` with explicit wrapping
(`% 2^32`, two's complement) exactly where the Rust code performs `as`
casts or release-mode wrapping arithmetic.  Panicking operations that a
claim exercises (`Index`/`IndexMut` on `Surface`, `Rgba::hex`) return
`Option`, with `none` standing for the panic.  Internal reads that the
render loop performs only in bounds are total with the surface's default
as an (unreachable) fallback value; this is noted at each such helper.
-/

/-- Reinterpret an integer as a `u32` (the Rust `as u32` cast from `i32`,
and the wrap of `u32` arithmetic). -/
def wrap32 (n : Int) : Nat := (n % 4294967296).toNat

/-- Reinterpret an integer as an `i32` (two's complement). -/
def toI32 (n : Int) : Int := (n + 2147483648) % 4294967296 - 2147483648

/-- Rust `i32::saturating_sub(self, 1)`. -/
def i32SatSub1 (x : Int) : Int :=
  if x - 1 < -2147483648 then -2147483648 else x - 1

/-- mars_math `Size<u32>`: `{ width, height }`. -/
structure Size where
  width : Nat
  height : Nat
deriving DecidableEq, Repr

/-- mars_math `Size::area`: `self.width * self.height` with `u32`
multiplication, which wraps. -/
def Size.area (s : Size) : Nat := (s.width * s.height) % 4294967296

/-- mars_math `Size::min` (componentwise). -/
def Size.min (s t : Size) : Size :=
  ⟨Nat.min s.width t.width, Nat.min s.height t.height⟩

/-- mars_math `Position<i32>`: `{ x, y }`. -/
structure Position where
  x : Int
  y : Int
deriving DecidableEq, Repr

/-- mars_math `Position::ZERO`. -/
def Position.ZERO : Position := ⟨0, 0⟩

/-- Rust `Position + Position` (componentwise `i32` add, release-mode
wrapping). -/
def Position.wadd (p q : Position) : Position :=
  ⟨toI32 (p.x + q.x), toI32 (p.y + q.y)⟩

/-- mars_surface `Rgba(u8, u8, u8, u8)`; each field is a byte value. -/
structure Rgba where
  r : Nat
  g : Nat
  b : Nat
  a : Nat
deriving DecidableEq, Repr

/-- mars_surface `Rgba::red`. -/
def Rgba.red (c : Rgba) : Nat := c.r

/-- mars_surface `Rgba::green`. -/
def Rgba.green (c : Rgba) : Nat := c.g

/-- mars_surface `Rgba::blue`. -/
def Rgba.blue (c : Rgba) : Nat := c.b

/-- mars_surface `Rgba::alpha`. -/
def Rgba.alpha (c : Rgba) : Nat := c.a

/-- mars_surface `Rgba::blend_alpha`, verbatim from `color.rs`: the
source destructures `self` a second time where the second operand was
evidently meant (`let Self(r1, g1, b1, ..) = self;`), so `r1 g1 b1`
come from `self`, not `other`.  The inner `blend` runs in `i32` (no
overflow possible for byte inputs) and the result is cast `as u8`. -/
def Rgba.blend_alpha (self other : Rgba) : Rgba :=
  let r0 := self.r; let g0 := self.g; let b0 := self.b; let a0 := self.a
  let r1 := self.r; let g1 := self.g; let b1 := self.b
  if a0 = 0 then other
  else if a0 = 255 then self
  else
    let blend := fun (l rr : Nat) => (((a0 : Int) * l + (255 - (a0 : Int)) * rr) / 255).toNat % 256
    ⟨blend r0 r1, blend g0 g1, blend b0 b1, a0 % 256⟩

/-- Spec-side channel formula for C7, following the specification's
words: `result = (alpha*src + (255-alpha)*dst) / 255` using the source's
alpha channel. -/
def blendChannelSpec (alpha src dst : Nat) : Nat :=
  (alpha * src + (255 - alpha) * dst) / 255

/-- mars_surface `Color`: `Named(IndexedColor) | Rgba(Rgba) | Default`.
The indexed color is its `u8` payload. -/
inductive Color where
  | Named (idx : Nat)
  | Rgba (c : Rgba)
  | Default
deriving DecidableEq, Repr

/-- mars_surface `Color::get_or_default`. -/
def Color.get_or_default (c other : Color) : Color :=
  match c with
  | .Default => other
  | c => c

/-- mars_surface `Attributes(NonZeroU16)`; only its equality is relevant
here, so the `u16` payload is a `Nat` (`BOLD = 1`). -/
abbrev Attributes := Nat

/-- mars_surface `PixelData`: a single char or a short string. -/
inductive PixelData where
  | Char (ch : Char)
  | Str (s : String)
deriving DecidableEq, Repr

/-- The string the renderer writes for a pixel (`ch.encode_utf8` for a
char, the string itself otherwise). -/
def PixelData.toStr : PixelData → String
  | .Char ch => String.mk [ch]
  | .Str s => s

/-- mars_surface `Pixel` (`pixel.rs`). -/
structure Pixel where
  data : PixelData
  foreground : Color
  background : Color
  attributes : Option Attributes
deriving DecidableEq, Repr

/-- `Pixel::empty` (`pixel.rs`): a space with default colors. -/
def Pixel.empty : Pixel :=
  ⟨.Char ' ', .Default, .Default, none⟩

/-- `Pixel::dirty` (`pixel.rs`): a space with `bg = Rgba(FF,00,FF,FF)`. -/
def Pixel.dirty : Pixel :=
  ⟨.Char ' ', .Default, .Rgba ⟨0xFF, 0x00, 0xFF, 0xFF⟩, none⟩

/-- `Pixel::new(ch)`. -/
def Pixel.new (ch : Char) : Pixel :=
  ⟨.Char ch, .Default, .Default, none⟩

/-- `Pixel::merge_mut` (`pixel.rs`): full replacement (the
transparency-aware variant is commented out in the source). -/
def Pixel.merge (_self other : Pixel) : Pixel := other

/-- mars_surface `ResizeMode`. -/
inductive ResizeMode where
  | Keep
  | Discard
deriving DecidableEq, Repr

/-- mars_surface `Surface<T>` (`surface.rs`): logical offset, size,
default value and the flat row-major cell buffer. -/
structure Surface (α : Type) where
  pos : Position
  size : Size
  default : α
  pixels : List α
deriving Repr

/-- `Surface::new(size, default)`: `vec![default; size.area() as usize]`. -/
def Surface.new (size : Size) (default : α) : Surface α :=
  ⟨Position.ZERO, size, default, List.replicate size.area default⟩

/-- `Surface::pos_of(stride, pos)`: `pos.y as u32 * stride + pos.x as u32`
in wrapping `u32` arithmetic. -/
def Surface.pos_of (stride : Nat) (pos : Position) : Nat :=
  (wrap32 pos.y * stride + wrap32 pos.x) % 4294967296

/-- `Surface::get` (`surface.rs`): computes the flat index from the raw
position without any bounds check on `x`/`y` (the source carries a
`FIXME check over/underflow`) and then uses the slice's checked `get`. -/
def Surface.get (s : Surface α) (pos : Position) : Option α :=
  s.pixels.get? (Surface.pos_of s.size.width (pos.wadd s.pos))

/-- Internal read through `Index<Position<i32>>`.  In the source this
asserts `x, y ≥ 0` and panics out of bounds; every use below is in
bounds, so the surface default stands in for the unreachable panic. -/
def Surface.read (s : Surface α) (pos : Position) : α :=
  (s.pixels.get? (Surface.pos_of s.size.width (pos.wadd s.pos))).getD s.default

/-- Internal write through `IndexMut<Position<i32>>`; `List.set` is a
no-op out of bounds, matching that every use below is in bounds. -/
def Surface.write (s : Surface α) (pos : Position) (a : α) : Surface α :=
  { s with pixels := s.pixels.set (Surface.pos_of s.size.width (pos.wadd s.pos)) a }

/-- Rust `new[x1..y1].clone_from_slice(&old[x0..y0])`: overwrite the
elements of `l` starting at `start` with `src`. -/
def writeSlice : List α → Nat → List α → List α
  | l, _, [] => l
  | l, start, a :: rest => writeSlice (l.set start a) (start + 1) rest

/-- `Surface::resize` (`surface.rs`).  `Keep` allocates a buffer of
defaults and copies row `y` of the overlap from source offset
`y * old.width` to destination offset `y * min.width` (the destination
stride in the source is `min.width`, not the new width).  `Discard`
resizes and refills with the default. -/
def Surface.resize [Inhabited α] (s : Surface α) (size : Size) (mode : ResizeMode) : Surface α :=
  match mode with
  | .Keep =>
    let mn := s.size.min size
    let init := List.replicate size.area s.default
    let pixels := (List.range mn.height).foldl
      (fun new y =>
        writeSlice new (y * mn.width) ((s.pixels.drop (y * s.size.width)).take mn.width))
      init
    { s with size := size, pixels := pixels }
  | .Discard =>
    { s with size := size, pixels := List.replicate size.area s.default }

/-- The rasterizer command alphabet (`rasterizer.rs`), as emitted by
`SurfaceRenderer::render`. -/
inductive Cmd where
  | begin
  | finish
  | move_to (pos : Position)
  | default_fg (c : Color)
  | default_bg (c : Color)
  | set_fg (c : Color)
  | set_bg (c : Color)
  | set_attribute (a : Attributes)
  | reset_attribute
  | write (s : String)
deriving DecidableEq, Repr

/-- The per-frame `State` of `surface_renderer.rs`. -/
structure RenderState where
  attr : Option Attributes
  pos : Option Position
  seen : Bool
  fg : Color
  bg : Color
  is_reset : Bool
  wrote_attr : Bool
deriving DecidableEq, Repr

/-- `State::update`: returns the old `seen` and sets it. -/
def RenderState.update (s : RenderState) : Bool × RenderState :=
  (s.seen, { s with seen := true })

/-- `State::maybe_attr` of `surface_renderer.rs` (this revision compares
against the tracked state, unlike the `lib.rs` revision below). -/
def RenderState.maybe_attr (s : RenderState) (attr : Option Attributes) :
    Option Attributes × RenderState :=
  if s.attr = attr then (none, s)
  else (attr, { s with is_reset := false, wrote_attr := true, attr := attr })

/-- `State::maybe_color`. -/
def RenderState.maybe_color (cur new : Color) : Option Color × Color :=
  if cur = new then (none, cur) else (some new, new)

/-- `State::maybe_fg`. -/
def RenderState.maybe_fg (s : RenderState) (fg : Color) : Option Color × RenderState :=
  let (res, c) := RenderState.maybe_color s.fg fg
  (res, { s with fg := c })

/-- `State::maybe_bg`. -/
def RenderState.maybe_bg (s : RenderState) (bg : Color) : Option Color × RenderState :=
  let (res, c) := RenderState.maybe_color s.bg bg
  (res, { s with bg := c })

/-- `State::maybe_move` (`surface_renderer.rs`, carrying the source's
`BUG this moves twice for 0,0` comment): move unless the previous
emitted position is immediately left-adjacent on the same row
(`old.y != pos.y || old.x != pos.x.saturating_sub(1)`). -/
def RenderState.maybe_move (s : RenderState) (pos : Position) : Bool × RenderState :=
  let should_move :=
    match s.pos with
    | some old => decide (old.y ≠ pos.y ∨ old.x ≠ i32SatSub1 pos.x)
    | none => true
  (should_move, { s with pos := some pos })

/-- The commands one differing cell emits, with the updated state; the
emission order matches the source body of the diff loop.  The
`attr.is_none()` arm of the source `match` is entirely commented out
there, so it contributes no command here either. -/
def cellEmit (dfg dbg : Color) (st : RenderState) (pos : Position) (pixel : Pixel) :
    List Cmd × RenderState :=
  let (old_seen, st) := st.update
  let (pre, st) :=
    if !old_seen then
      let (mv, st) := st.maybe_move pos
      ([Cmd.begin] ++ (if mv then [Cmd.move_to pos] else [])
        ++ [Cmd.default_fg dfg, Cmd.default_bg dbg], st)
    else ([], st)
  let (mv, st) := st.maybe_move pos
  let movePart := if mv then [Cmd.move_to pos] else []
  let fg := pixel.foreground.get_or_default dfg
  let bg := pixel.background.get_or_default dbg
  let (ar, st) := st.maybe_attr pixel.attributes
  let attrPart := match ar with | some a => [Cmd.set_attribute a] | none => []
  let (fr, st) := st.maybe_fg fg
  let fgPart := match fr with | some c => [Cmd.set_fg c] | none => []
  let (br, st) := st.maybe_bg bg
  let bgPart := match br with | some c => [Cmd.set_bg c] | none => []
  (pre ++ movePart ++ attrPart ++ fgPart ++ bgPart ++ [Cmd.write pixel.data.toStr], st)

/-- Accumulator of the diff loop: both grids, the per-frame state and
the commands emitted so far. -/
structure RenderAcc where
  front : Surface Pixel
  back : Surface Pixel
  st : RenderState
  cmds : List Cmd

/-- One iteration of the diff loop for grid coordinates `(x, y)`; they
are cast `as i32` as in the source (`FIXME this can lose resolution`).
The front cell is replaced by `Pixel::empty` before the comparison
(`std::mem::replace`); an unchanged cell emits nothing. -/
def cellStep (dfg dbg : Color) (acc : RenderAcc) (p : Nat × Nat) : RenderAcc :=
  let pos : Position := ⟨toI32 p.1, toI32 p.2⟩
  let pixel := acc.front.read pos
  let front := acc.front.write pos Pixel.empty
  if pixel = acc.back.read pos then { acc with front := front }
  else
    let es := cellEmit dfg dbg acc.st pos pixel
    { front := front
      back := acc.back.write pos pixel
      st := es.2
      cmds := acc.cmds ++ es.1 }

/-- Row-major traversal order of the diff loop: `y` outer, `x` inner. -/
def rowMajor (w h : Nat) : List (Nat × Nat) :=
  (List.range h).flatMap fun y => (List.range w).map fun x => (x, y)

/-- mars_surface `SurfaceRenderer` (`surface_renderer.rs`). -/
structure SurfaceRenderer where
  size : Size
  front : Surface Pixel
  back : Surface Pixel
  default_fg : Color
  default_bg : Color

/-- `SurfaceRenderer::new`: front seeded with `Pixel::empty`, back with
the `Pixel::dirty` sentinel, default colors `Color::Default`. -/
def SurfaceRenderer.new (size : Size) : SurfaceRenderer :=
  { size := size
    front := Surface.new size Pixel.empty
    back := Surface.new size Pixel.dirty
    default_fg := Color.Default
    default_bg := Color.Default }

/-- `SurfaceRenderer::put`: `u32::try_from` fails on negative
coordinates (early return), then the source checks
`x > self.size.width || y >= self.size.height` (note the strict `>` on `x`) and
otherwise writes through the panicking `IndexMut<Position<u32>>` path;
`none` models that panic.  `merge_mut` fully replaces the cell. -/
def SurfaceRenderer.put (r : SurfaceRenderer) (pos : Position) (pixel : Pixel) :
    Option SurfaceRenderer :=
  if pos.x < 0 then some r
  else if pos.y < 0 then some r
  else
    let x := pos.x.toNat
    let y := pos.y.toNat
    if x > r.size.width ∨ y ≥ r.size.height then some r
    else
      let idx := Surface.pos_of r.front.size.width
        ((Position.mk (toI32 x) (toI32 y)).wadd r.front.pos)
      match r.front.pixels.get? idx with
      | none => none
      | some old =>
        some { r with front := { r.front with pixels := r.front.pixels.set idx (old.merge pixel) } }

/-- `SurfaceRenderer::render` against a command-recording rasterizer:
scans all cells row-major, emits per the diff state machine, commits
each processed cell into the back grid, and emits `end` only if some
cell differed.  The recorded command list is returned alongside the
updated renderer. -/
def SurfaceRenderer.render (r : SurfaceRenderer) : SurfaceRenderer × List Cmd :=
  let st0 : RenderState :=
    { attr := none, pos := none, seen := false
      fg := r.default_fg, bg := r.default_bg
      is_reset := false, wrote_attr := false }
  let acc := (rowMajor r.size.width r.size.height).foldl
    (cellStep r.default_fg r.default_bg)
    ⟨r.front, r.back, st0, []⟩
  let cmds := acc.cmds ++ (if acc.st.seen then [Cmd.finish] else [])
  ({ r with front := acc.front, back := acc.back }, cmds)

/-- `State::maybe_attr` of the older self-contained `lib.rs` revision:
its condition is the marked bug `if attr == attr` (comparing the
argument with itself instead of with the tracked state), so it always
short-circuits to `None` and never touches the state. -/
def libMaybeAttr (s : RenderState) (attr : Option Attributes) :
    Option Attributes × RenderState :=
  if attr = attr then (none, s)
  else (attr, { s with is_reset := false, wrote_attr := true, attr := attr })

/-- The inner loop of `measure_text` (`drawable.rs`), accumulating the
`place` calls.  `dx` is an `i32` and `dy`/`w` are `u32` in the source;
they only ever grow by 1 per consumed character, so plain `Nat`
counters are exact here.  Note both break conditions of the source
compare against `size.width`. -/
def measureGo (size : Size) : List Char → Nat → Nat → Nat → List (Position × Char) →
    Nat × Nat × List (Position × Char)
  | [], _, dy, w, acc => (w, dy, acc)
  | c :: rest, dx, dy, w, acc =>
    if w > size.width then (w, dy, acc)
    else if c = '\n' then
      if dy + 1 > size.width then (w, dy, acc)
      else measureGo size rest 0 (dy + 1) w acc
    else measureGo size rest (dx + 1) dy (Nat.max w (dx + 1)) (acc ++ [(⟨(dx : Int), (dy : Int)⟩, c)])

/-- `measure_text(s, size, place)` (`drawable.rs`): returns the measured
`Size` together with the list of `place(position, char)` calls made. -/
def measure_text (s : String) (size : Size) : Size × List (Position × Char) :=
  if s.isEmpty then (⟨0, 0⟩, [])
  else
    let (w, dy, acc) := measureGo size s.data 0 0 0 []
    (⟨w, dy + 1⟩, acc)

/-- The `to_digit` helper of `Rgba::hex`: asserts the byte is an ASCII
hex digit (modelled as `none`) and returns its value. -/
def hexDigit (d : Nat) : Option Nat :=
  if 48 ≤ d ∧ d ≤ 57 then some (d - 48)
  else if 97 ≤ d ∧ d ≤ 102 then some (d - 97 + 10)
  else if 65 ≤ d ∧ d ≤ 70 then some (d - 65 + 10)
  else none

/-- The `pack` helper of `Rgba::hex`: `(to_digit(high) << 4) | to_digit(low)`. -/
def hexPack (hi lo : Nat) : Option Nat := do
  let h ← hexDigit hi
  let l ← hexDigit lo
  pure ((h <<< 4) ||| l)

/-- The `is_ascii_whitespace` helper of `Rgba::hex`. -/
def hexIsWs (b : Nat) : Bool := b = 32 ∨ b = 9 ∨ b = 10 ∨ b = 13

/-- The leading-whitespace loop of `Rgba::hex`
(`while is_ascii_whitespace(color[start])`); running off the end of an
all-whitespace string is the source's index panic, modelled as `none`. -/
def hexSkipWs : List Nat → Option (List Nat)
  | [] => none
  | b :: rest => if hexIsWs b then hexSkipWs rest else some (b :: rest)

/-- The shape dispatch of `Rgba::hex` on the trimmed bytes: `#RRGGBB`,
`#RRGGBBAA`, `#RGB`, `#RGBA` (`35` is `#`); every other shape panics in
the source. -/
def hexMatch : List Nat → Option Rgba
  | [35, rh, rl, gh, gl, bh, bl] => do
    pure ⟨← hexPack rh rl, ← hexPack gh gl, ← hexPack bh bl, 255⟩
  | [35, rh, rl, gh, gl, bh, bl, ah, al] => do
    pure ⟨← hexPack rh rl, ← hexPack gh gl, ← hexPack bh bl, ← hexPack ah al⟩
  | [35, r, g, b] => do
    pure ⟨← hexPack r r, ← hexPack g g, ← hexPack b b, 255⟩
  | [35, r, g, b, a] => do
    pure ⟨← hexPack r r, ← hexPack g g, ← hexPack b b, ← hexPack a a⟩
  | _ => none

/-- `Rgba::hex` (`color.rs`): reject the empty string, skip leading
whitespace, cut at the first interior whitespace, then dispatch on the
shape.  `none` models every panic path.  `str::as_bytes` is modelled by
the codepoint list; on any input containing a non-ASCII character both
the source (failed digit assert or shape panic) and this model reject. -/
def Rgba.hex (s : String) : Option Rgba :=
  let bytes := s.data.map Char.toNat
  if bytes = [] then none
  else do
    let rest ← hexSkipWs bytes
    hexMatch (rest.takeWhile fun b => !hexIsWs b)

/-- Number of `write` commands in a trace. -/
def countWrites (cmds : List Cmd) : Nat :=
  cmds.countP fun c => match c with | .write _ => true | _ => false

/-- Number of `move_to` commands in a trace. -/
def countMoves (cmds : List Cmd) : Nat :=
  cmds.countP fun c => match c with | .move_to _ => true | _ => false

/-- Number of `set_attribute` commands in a trace. -/
def countSetAttr (cmds : List Cmd) : Nat :=
  cmds.countP fun c => match c with | .set_attribute _ => true | _ => false

/-- Number of `reset_attribute` commands in a trace. -/
def countResetAttr (cmds : List Cmd) : Nat :=
  cmds.countP fun c => match c with | .reset_attribute => true | _ => false

/-- The single space string a default cell writes. -/
def spaceStr : String := " "

/-- C1 scenario: a 1×1 renderer after `put((0,0), Pixel::new('a'))`. -/
def c1Put : Option SurfaceRenderer :=
  (SurfaceRenderer.new ⟨1, 1⟩).put ⟨0, 0⟩ (Pixel.new 'a')

/-- C4 scenario: a 2×1 renderer whose front grid holds a cell with
attributes `Some(BOLD)` followed by a cell with attributes `None`
(the state `put` would leave behind), back grid freshly dirty. -/
def c4Renderer : SurfaceRenderer :=
  { size := ⟨2, 1⟩
    front := ⟨Position.ZERO, ⟨2, 1⟩, Pixel.empty,
      [⟨.Char 'a', .Default, .Default, some 1⟩, ⟨.Char 'b', .Default, .Default, none⟩]⟩
    back := Surface.new ⟨2, 1⟩ Pixel.dirty
    default_fg := .Default
    default_bg := .Default }

/-- C5 scenario: a 2×2 grid with the distinct pattern `0 1 / 2 3` and
default value `9`. -/
def c5Surface : Surface Nat := ⟨Position.ZERO, ⟨2, 2⟩, 9, [0, 1, 2, 3]⟩

/-- C6 scenario: a 5×5 grid whose cell at `(x, y)` holds `y*5 + x`,
default value `99`. -/
def c6Surface : Surface Nat := ⟨Position.ZERO, ⟨5, 5⟩, 99, List.range 25⟩

/-- C8 scenario: four one-character lines. -/
def c8Input : String := "a\nb\nc\nd"

/-- C8 scenario: two one-character lines. -/
def c8Input2 : String := "a\nb"

/-- C9 input `#1a2b3c`. -/
def hexStr6 : String := "#1a2b3c"

/-- C9 input `#abc`. -/
def hexStr3 : String := "#abc"

/-- C9 input `#aabbcc`. -/
def hexStr6b : String := "#aabbcc"

/-- Counting writes distributes over command-trace concatenation. -/
theorem countWrites_append (a b : List Cmd) :
    countWrites (a ++ b) = countWrites a + countWrites b := by
  simp [countWrites, List.countP_append]

/-- A differing cell emits exactly one `write`, whatever the elision
state decides about moves, attributes and colors. -/
theorem cellEmit_writes (dfg dbg : Color) (st : RenderState) (pos : Position) (pixel : Pixel) :
    countWrites (cellEmit dfg dbg st pos pixel).1 = 1 := by
  unfold cellEmit RenderState.update RenderState.maybe_move RenderState.maybe_attr
    RenderState.maybe_fg RenderState.maybe_bg RenderState.maybe_color
  simp only [countWrites, List.countP_append]
  repeat' split
  all_goals simp [List.countP, List.countP.go]

/-- Each loop iteration replaces the visited front cell by
`Pixel::empty`, in both the changed and the unchanged branch. -/
theorem cellStep_front (dfg dbg : Color) (acc : RenderAcc) (p : Nat × Nat) :
    (cellStep dfg dbg acc p).front
      = acc.front.write ⟨toI32 p.1, toI32 p.2⟩ Pixel.empty := by
  unfold cellStep
  simp only []
  split <;> rfl

/-- On a differing cell the loop iteration commits the front pixel into
the back grid and appends exactly one more `write` to the trace. -/
theorem cellStep_ne (dfg dbg : Color) (acc : RenderAcc) (p : Nat × Nat)
    (h : acc.front.read ⟨toI32 p.1, toI32 p.2⟩ ≠ acc.back.read ⟨toI32 p.1, toI32 p.2⟩) :
    (cellStep dfg dbg acc p).back
        = acc.back.write ⟨toI32 p.1, toI32 p.2⟩ (acc.front.read ⟨toI32 p.1, toI32 p.2⟩)
      ∧ countWrites (cellStep dfg dbg acc p).cmds = countWrites acc.cmds + 1 := by
  unfold cellStep
  simp only []
  rw [if_neg h]
  exact ⟨rfl, by simp [countWrites_append, cellEmit_writes]⟩

/-- Reading any position of an all-empty surface yields `Pixel::empty`. -/
theorem Surface.read_all_empty (s : Surface Pixel) (pos : Position)
    (hd : s.default = Pixel.empty) (hp : ∀ q ∈ s.pixels, q = Pixel.empty) :
    s.read pos = Pixel.empty := by
  unfold Surface.read
  cases h : s.pixels.get? (Surface.pos_of s.size.width (pos.wadd s.pos)) with
  | none => simpa using hd
  | some v => simpa using hp v (List.get?_mem h)

/-- Writing `Pixel::empty` into an all-empty buffer keeps it all empty. -/
theorem Surface.write_all_empty (s : Surface Pixel) (pos : Position) (a : Pixel)
    (hp : ∀ q ∈ s.pixels, q = Pixel.empty) (ha : a = Pixel.empty) :
    ∀ q ∈ (s.write pos a).pixels, q = Pixel.empty := by
  intro q hq
  rcases List.mem_or_eq_of_mem_set hq with h | h
  · exact hp q h
  · rw [h, ha]

/-- Writing at one flat index leaves reads at a different flat index
unchanged. -/
theorem Surface.read_write_ne (s : Surface α) (p q : Position) (a : α)
    (h : Surface.pos_of s.size.width (p.wadd s.pos) ≠ Surface.pos_of s.size.width (q.wadd s.pos)) :
    (s.write p a).read q = s.read q := by
  unfold Surface.read Surface.write
  simp only [List.get?_eq_getElem?]
  rw [List.getElem?_set_ne h]

/-- Fold of the diff loop over pairwise-distinct fresh positions: every
visited cell of an all-empty front against a still-dirty back differs,
so each visit appends exactly one `write`. -/
theorem render_writes_aux (dfg dbg : Color) (W : Nat) (P : Position) :
    ∀ (ps : List (Nat × Nat)) (acc : RenderAcc),
      acc.back.size.width = W → acc.back.pos = P →
      acc.front.default = Pixel.empty →
      (∀ q ∈ acc.front.pixels, q = Pixel.empty) →
      (∀ p ∈ ps, acc.back.read ⟨toI32 p.1, toI32 p.2⟩ = Pixel.dirty) →
      (ps.map fun p => Surface.pos_of W ((Position.mk (toI32 p.1) (toI32 p.2)).wadd P)).Nodup →
      countWrites ((ps.foldl (cellStep dfg dbg) acc).cmds) = countWrites acc.cmds + ps.length
  | [], acc, _, _, _, _, _, _ => by simp
  | p :: rest, acc, hW, hP, hfd, hf, hb, hnd => by
    simp only [List.map_cons, List.nodup_cons] at hnd
    have hpix : acc.front.read ⟨toI32 p.1, toI32 p.2⟩ = Pixel.empty :=
      Surface.read_all_empty _ _ hfd hf
    have hbp : acc.back.read ⟨toI32 p.1, toI32 p.2⟩ = Pixel.dirty :=
      hb p (List.mem_cons_self _ _)
    have hne : acc.front.read ⟨toI32 p.1, toI32 p.2⟩ ≠ acc.back.read ⟨toI32 p.1, toI32 p.2⟩ := by
      rw [hpix, hbp]; decide
    obtain ⟨hback, hw⟩ := cellStep_ne dfg dbg acc p hne
    have hfront := cellStep_front dfg dbg acc p
    rw [List.foldl_cons]
    have ih := render_writes_aux dfg dbg W P rest (cellStep dfg dbg acc p)
      (by rw [hback]; exact hW)
      (by rw [hback]; exact hP)
      (by rw [hfront]; exact hfd)
      (by rw [hfront]
          exact Surface.write_all_empty acc.front _ _ hf rfl)
      (by intro q hq
          rw [hback]
          have hidx : Surface.pos_of acc.back.size.width
                ((Position.mk (toI32 p.1) (toI32 p.2)).wadd acc.back.pos)
              ≠ Surface.pos_of acc.back.size.width
                ((Position.mk (toI32 q.1) (toI32 q.2)).wadd acc.back.pos) := by
            rw [hW, hP]
            intro hcontra
            apply hnd.1
            rw [hcontra]
            exact List.mem_map_of_mem _ hq
          rw [Surface.read_write_ne _ _ _ _ hidx]
          exact hb q (List.mem_cons_of_mem _ hq))
      hnd.2
    rw [ih, hw, List.length_cons]
    omega

/-- Casting a small natural through `as i32` is the identity. -/
theorem toI32_coe (n : Nat) (h : n < 2147483648) : toI32 n = n := by
  unfold toI32
  omega

/-- Casting a small natural through `as u32` is the identity. -/
theorem wrap32_coe (n : Nat) (h : n < 4294967296) : wrap32 n = n := by
  unfold wrap32
  omega

/-- For in-bounds coordinates of a grid whose area fits in a `u32` and
whose sides fit in an `i32`, the flat index is exactly `y*w + x`. -/
theorem pos_of_inBounds (w h x y : Nat) (hx : x < w) (hy : y < h)
    (hw : w ≤ 2147483648) (hh : h ≤ 2147483648) (harea : w * h < 4294967296) :
    Surface.pos_of w ((Position.mk (toI32 x) (toI32 y)).wadd Position.ZERO) = y * w + x := by
  have hx31 : x < 2147483648 := by omega
  have hy31 : y < 2147483648 := by omega
  have hyx : y * w + x < 4294967296 := by
    have h1 : (y + 1) * w ≤ h * w := Nat.mul_le_mul_right w hy
    have e : (y + 1) * w = y * w + w := by ring
    have h3 : h * w = w * h := Nat.mul_comm h w
    omega
  unfold Position.wadd Position.ZERO
  simp only [add_zero]
  have hxx : toI32 x = (x : Int) := toI32_coe x hx31
  have hyy : toI32 y = (y : Int) := toI32_coe y hy31
  rw [hxx, hyy, hxx, hyy]
  unfold Surface.pos_of
  rw [wrap32_coe x (by omega), wrap32_coe y (by omega)]
  exact Nat.mod_eq_of_lt hyx

/-- Members of the row-major traversal are in bounds. -/
theorem mem_rowMajor {w h : Nat} {p : Nat × Nat} (hp : p ∈ rowMajor w h) :
    p.1 < w ∧ p.2 < h := by
  unfold rowMajor at hp
  rw [List.mem_flatMap] at hp
  obtain ⟨y, hy, hmem⟩ := hp
  rw [List.mem_map] at hmem
  obtain ⟨x, hxm, hxe⟩ := hmem
  rw [List.mem_range] at hy
  rw [List.mem_range] at hxm
  rw [← hxe]
  exact ⟨hxm, hy⟩

/-- Mapping the row-major traversal to flat indices gives `range (h*w)`,
so the traversal visits pairwise distinct cells, once each. -/
theorem rowMajor_map_flat (w : Nat) :
    ∀ h, ((rowMajor w h).map fun p => p.2 * w + p.1) = List.range (h * w) := by
  intro h
  induction h with
  | zero => simp [rowMajor]
  | succ n ih =>
    unfold rowMajor at ih ⊢
    rw [List.range_succ, List.flatMap_append, List.map_append, ih]
    have hstep : (([n].flatMap fun y => (List.range w).map fun x => (x, y)).map
        fun p => p.2 * w + p.1) = (List.range w).map fun x => n * w + x := by
      simp [List.map_map, Function.comp]
    rw [hstep]
    have : (n + 1) * w = n * w + w := by ring
    rw [this, List.range_add]

/-- Length of the row-major traversal. -/
theorem rowMajor_length (w h : Nat) : (rowMajor w h).length = h * w := by
  have := congrArg List.length (rowMajor_map_flat w h)
  simpa using this

/-- C1: the claim that a second `render` with no intervening writes
emits zero commands is false on the code.  After `put((0,0),'a')` and a
first render, the commit resets the front cell to `Pixel::empty` while
the back grid now holds the rendered pixel, so the very next render
sees every previously non-empty cell as changed again and emits a full
`begin`/`move_to`/`write`/`end` frame (the source marks this
`BUG the diff totally isn't working` and leaves the front/back swap
commented out). -/
theorem c1_second_render_emits :
    c1Put.map (fun r => ((r.render).1.render).2)
      = some [Cmd.begin, Cmd.move_to ⟨0, 0⟩, Cmd.default_fg Color.Default,
          Cmd.default_bg Color.Default, Cmd.move_to ⟨0, 0⟩, Cmd.write spaceStr, Cmd.finish]
    ∧ c1Put.map (fun r => countWrites ((r.render).1.render).2) ≠ some 0 := by
  exact ⟨rfl, by decide⟩

/-- C2: the very first render of a freshly constructed renderer emits
exactly `width*height` write commands: the back grid is seeded with the
dirty sentinel, which differs from the empty front cells everywhere.
The hypotheses keep the scenario inside the source's integer types
(sides fit an `i32`, the area fits a `u32`), where the construction and
the scan are well defined. -/
theorem c2_first_render_full_paint (w h : Nat) (hw : w ≤ 2147483648) (hh : h ≤ 2147483648)
    (harea : w * h < 4294967296) :
    countWrites ((SurfaceRenderer.new ⟨w, h⟩).render).2 = w * h := by
  have harea' : Size.area ⟨w, h⟩ = w * h := by
    unfold Size.area
    exact Nat.mod_eq_of_lt harea
  have hfin : ∀ b : Bool, countWrites (if b = true then [Cmd.finish] else []) = 0 := by
    intro b
    cases b <;> rfl
  have hred : ((SurfaceRenderer.new ⟨w, h⟩).render).2
      = ((rowMajor w h).foldl (cellStep Color.Default Color.Default)
          ⟨Surface.new ⟨w, h⟩ Pixel.empty, Surface.new ⟨w, h⟩ Pixel.dirty,
            { attr := none, pos := none, seen := false, fg := Color.Default,
              bg := Color.Default, is_reset := false, wrote_attr := false }, []⟩).cmds
        ++ (if ((rowMajor w h).foldl (cellStep Color.Default Color.Default)
              ⟨Surface.new ⟨w, h⟩ Pixel.empty, Surface.new ⟨w, h⟩ Pixel.dirty,
                { attr := none, pos := none, seen := false, fg := Color.Default,
                  bg := Color.Default, is_reset := false, wrote_attr := false }, []⟩).st.seen
            then [Cmd.finish] else []) := rfl
  rw [hred, countWrites_append, hfin]
  have hmain := render_writes_aux Color.Default Color.Default w Position.ZERO
    (rowMajor w h)
    ⟨Surface.new ⟨w, h⟩ Pixel.empty, Surface.new ⟨w, h⟩ Pixel.dirty,
      { attr := none, pos := none, seen := false, fg := Color.Default,
        bg := Color.Default, is_reset := false, wrote_attr := false }, []⟩
    rfl rfl rfl
    (by intro q hq
        exact List.eq_of_mem_replicate hq)
    (by intro p hp
        obtain ⟨hx, hy⟩ := mem_rowMajor hp
        show (Surface.new ⟨w, h⟩ Pixel.dirty).read ⟨toI32 p.1, toI32 p.2⟩ = Pixel.dirty
        unfold Surface.read Surface.new
        simp only []
        rw [pos_of_inBounds w h p.1 p.2 hx hy hw hh harea]
        have hlt : p.2 * w + p.1 < w * h := by
          have h1 : (p.2 + 1) * w ≤ h * w := Nat.mul_le_mul_right w hy
          have e : (p.2 + 1) * w = p.2 * w + w := by ring
          have h3 : h * w = w * h := Nat.mul_comm h w
          omega
        rw [List.get?_eq_getElem?, harea', List.getElem?_replicate, if_pos hlt]
        rfl)
    (by have hcongr : ((rowMajor w h).map fun p =>
            Surface.pos_of w ((Position.mk (toI32 p.1) (toI32 p.2)).wadd Position.ZERO))
          = (rowMajor w h).map fun p => p.2 * w + p.1 := by
          apply List.map_congr_left
          intro p hp
          obtain ⟨hx, hy⟩ := mem_rowMajor hp
          exact pos_of_inBounds w h p.1 p.2 hx hy hw hh harea
        rw [hcongr, rowMajor_map_flat]
        exact List.nodup_range _)
  rw [hmain, rowMajor_length]
  simp [countWrites, Nat.mul_comm]

/-- Witness for C2 at a concrete 2×2 renderer. -/
theorem c2_first_render_full_paint_witness :
    (2 ≤ 2147483648 ∧ 2 ≤ 2147483648 ∧ 2 * 2 < 4294967296)
    ∧ countWrites ((SurfaceRenderer.new ⟨2, 2⟩).render).2 = 2 * 2 :=
  ⟨⟨by decide, by decide, by decide⟩,
    c2_first_render_full_paint 2 2 (by decide) (by decide) (by decide)⟩

/-- C3: the claim that a fully differing row emits exactly one
`move_to` is false on the code: a fresh 3×1 renderer (its only row
entirely differing, processed left to right) emits two `move_to`
commands, because the first differing cell is moved to once in the
frame-opening branch and again immediately after it (the source marks
this `BUG this moves twice for 0,0`); the `width` write count is as
claimed. -/
theorem c3_single_row_double_move :
    countMoves ((SurfaceRenderer.new ⟨3, 1⟩).render).2 = 2
    ∧ countWrites ((SurfaceRenderer.new ⟨3, 1⟩).render).2 = 3
    ∧ ((SurfaceRenderer.new ⟨3, 1⟩).render).2
      = [Cmd.begin, Cmd.move_to ⟨0, 0⟩, Cmd.default_fg Color.Default,
          Cmd.default_bg Color.Default, Cmd.move_to ⟨0, 0⟩, Cmd.write spaceStr,
          Cmd.write spaceStr, Cmd.write spaceStr, Cmd.finish] := by
  exact ⟨rfl, rfl, rfl⟩

/-- C4: the claimed attribute elision is not what the code does.  In
the `lib.rs` revision, `maybe_attr` compares `attr == attr`, so it
always answers `None` and leaves the state untouched (first conjunct:
no input can ever make it report a difference).  In the
`surface_renderer.rs` revision, rendering a changed cell with
attributes `Some(BOLD)` followed by a changed cell with attributes
`None` emits one `set_attribute` and no `reset_attribute` at all: the
whole `reset_attr` arm is commented out in the source. -/
theorem c4_attribute_reset_never_emitted :
    (∀ (s : RenderState) (a : Option Attributes), libMaybeAttr s a = (none, s))
    ∧ countSetAttr (c4Renderer.render).2 = 1
    ∧ countResetAttr (c4Renderer.render).2 = 0 := by
  refine ⟨fun s a => by simp [libMaybeAttr], rfl, rfl⟩

/-- C5: `resize(Keep)` preserves the overlap only when the width does
not grow.  Shrinking the 2×2 pattern `0 1 / 2 3` to 1×1 keeps the
top-left cell, but growing it to 3×3 copies row 1 at the old stride:
the buffer becomes `0 1 2 3 9 ...`, so the preserved value `3` of cell
`(1,1)` is replaced by the default `9` and old row 1 lands at
positions `(2,0)` and `(0,1)` of the new grid. -/
theorem c5_resize_keep_grow_misplaces :
    (c5Surface.resize ⟨3, 3⟩ .Keep).pixels = [0, 1, 2, 3, 9, 9, 9, 9, 9]
    ∧ (c5Surface.resize ⟨3, 3⟩ .Keep).get ⟨1, 1⟩ = some 9
    ∧ c5Surface.get ⟨1, 1⟩ = some 3
    ∧ (c5Surface.resize ⟨1, 1⟩ .Keep).pixels = [0] := by
  exact ⟨rfl, rfl, rfl, rfl⟩

/-- C6: the claim that `get` answers `None` for every out-of-bounds
position is false on the code: on a 5×5 grid holding `y*5 + x` at
`(x,y)`, the out-of-bounds `get((5,0))` returns the cell stored at the
in-bounds position `(0,1)` (flat row-major aliasing), and the negative
`get((-1,1))` wraps through the `as u32` cast to the cell of `(4,0)`
(the source carries `FIXME check over/underflow`). -/
theorem c6_get_out_of_bounds_aliases :
    c6Surface.get ⟨5, 0⟩ = some 5
    ∧ c6Surface.get ⟨0, 1⟩ = some 5
    ∧ c6Surface.get ⟨-1, 1⟩ = some 4
    ∧ c6Surface.get ⟨4, 0⟩ = some 4 := by
  exact ⟨rfl, rfl, by decide, rfl⟩

/-- C7: the claimed per-channel formula is false on the code: because
`blend_alpha` destructures `self` twice, the destination never enters
the computation and any source with `0 < alpha < 255` blends to itself,
while the spec formula gives `(128*100 + 127*0)/255 = 50` for this
input.  The two boundary cases of the claim (`alpha = 0` yields the
destination, `alpha = 255` yields the source) do hold, via the early
returns. -/
theorem c7_blend_alpha_ignores_destination :
    Rgba.blend_alpha ⟨100, 100, 100, 128⟩ ⟨0, 0, 0, 255⟩ = ⟨100, 100, 100, 128⟩
    ∧ blendChannelSpec 128 100 0 = 50
    ∧ (Rgba.blend_alpha ⟨100, 100, 100, 128⟩ ⟨0, 0, 0, 255⟩).red ≠ blendChannelSpec 128 100 0
    ∧ Rgba.blend_alpha ⟨7, 8, 9, 0⟩ ⟨1, 2, 3, 77⟩ = ⟨1, 2, 3, 77⟩
    ∧ Rgba.blend_alpha ⟨7, 8, 9, 255⟩ ⟨1, 2, 3, 77⟩ = ⟨7, 8, 9, 255⟩ := by
  exact ⟨rfl, rfl, by decide, rfl, rfl⟩

/-- C8: newline handling starts a new row at `x = 0` as claimed, but
the truncation bound is wrong in the code: both break conditions
compare against `size.width`, not the available height.  With available
size 2×5 the four lines `a b c d` are cut after three rows (bounded by
the width 2) although five rows are available, and with available size
9×1 the second line is still laid out and measured although only one
row is available. -/
theorem c8_measure_text_truncates_by_width :
    measure_text c8Input ⟨2, 5⟩
      = (⟨1, 3⟩, [(⟨0, 0⟩, 'a'), (⟨0, 1⟩, 'b'), (⟨0, 2⟩, 'c')])
    ∧ measure_text c8Input2 ⟨9, 1⟩
      = (⟨1, 2⟩, [(⟨0, 0⟩, 'a'), (⟨0, 1⟩, 'b')]) := by
  exact ⟨rfl, rfl⟩

/-- C9: `hex("#1a2b3c")` reads back `0x1a/0x2b/0x3c` with alpha `0xFF`,
and `hex("#abc")` expands each digit by duplication to the same color
as `hex("#aabbcc")`. -/
theorem c9_hex_round_trip :
    (Rgba.hex hexStr6).map Rgba.red = some 0x1a
    ∧ (Rgba.hex hexStr6).map Rgba.green = some 0x2b
    ∧ (Rgba.hex hexStr6).map Rgba.blue = some 0x3c
    ∧ (Rgba.hex hexStr6).map Rgba.alpha = some 0xFF
    ∧ Rgba.hex hexStr3 = Rgba.hex hexStr6b
    ∧ Rgba.hex hexStr3 = some ⟨0xaa, 0xbb, 0xcc, 0xFF⟩ := by
  exact ⟨rfl, rfl, rfl, rfl, rfl, rfl⟩

/-- C10: the claim that `put` leaves the renderer untouched for every
out-of-bounds position is false at `x = width`: the guard is
`x > self.size.width` (strict), so on a 2×2 renderer `put((2,0))`
writes flat index 2, i.e. the in-bounds cell `(0,1)`, and `put((2,1))`
indexes one past the buffer and panics (`none`).  Negative coordinates
and `y ≥ height` are rejected as the claim states. -/
theorem c10_put_width_boundary :
    ((SurfaceRenderer.new ⟨2, 2⟩).put ⟨2, 0⟩ (Pixel.new 'x')).map (fun r => r.front.pixels)
      = some [Pixel.empty, Pixel.empty, Pixel.new 'x', Pixel.empty]
    ∧ (SurfaceRenderer.new ⟨2, 2⟩).put ⟨2, 1⟩ (Pixel.new 'x') = none
    ∧ ((SurfaceRenderer.new ⟨2, 2⟩).put ⟨-1, 0⟩ (Pixel.new 'x')).map (fun r => r.front.pixels)
      = some (List.replicate 4 Pixel.empty)
    ∧ ((SurfaceRenderer.new ⟨2, 2⟩).put ⟨0, 2⟩ (Pixel.new 'x')).map (fun r => r.front.pixels)
      = some (List.replicate 4 Pixel.empty) := by
  exact ⟨rfl, rfl, rfl, rfl⟩
